import Mathlib

/-!
Verification of the validator module of the oss-directory repository
(`src/validator/index.ts`).

The module validates parsed JSON/YAML values against four fixed JSON schemas
compiled by Ajv, and wraps validation in a typed-cast operation and a file
loader.  The shallow embedding below models:

* parsed generic values (`GenericValue`, the TS `any` produced by
  `JSON.parse` / `YAML.parse`);
* Ajv error objects (`AjvError`: `params.missingProperty` and `message`);
* a compiled validator (`CompiledValidator`): calling `validate(obj)` yields
  the boolean result, and `validate.errors` the error list (`null` on
  success, hence an `Option`);
* the Ajv registry (`ajv.getSchema`) as a function from schema names to an
  optional compiled validator — the four schema documents themselves are
  separate JSON resources, so the compiled validators are kept abstract;
* JavaScript string-keyed objects (`Record<string, string>`) as association
  lists in insertion order, with `errors[key] = msg` assignment updating an
  existing binding in place and appending a fresh one at the end;
* `console.warn` as an accumulated log of warning payloads, and `throw` /
  normal return as `Except`;
* file reading (`fs.readFile`) by handing the file contents to the loader
  directly, and the external `JSON.parse` / `YAML.parse` collaborators as
  function parameters returning `Except` (thrown parse error or value).
-/

/-- The parsed generic value: models the TS `any` obtained from
`JSON.parse` or `YAML.parse` (nested mapping / sequence / scalar). -/
inductive GenericValue where
  | null
  | bool (b : Bool)
  | num (n : Int)
  | str (s : String)
  | arr (xs : List GenericValue)
  | obj (fields : List (String × GenericValue))

/-- The TS union type `Schema` of the four registered schema names. -/
inductive Schema where
  | project
  | collection
  | url
  | blockchainAddress
deriving DecidableEq

/-- The string literal each `Schema` variant denotes in the source. -/
def Schema.name : Schema → String
  | .project => "project.json"
  | .collection => "collection.json"
  | .url => "url.json"
  | .blockchainAddress => "blockchain-address.json"

def PROJECT_SCHEMA : Schema := Schema.project

def COLLECTION_SCHEMA : Schema := Schema.collection

def URL_SCHEMA : Schema := Schema.url

def BLOCKCHAIN_ADDRESS_SCHEMA : Schema := Schema.blockchainAddress

/-- An Ajv validation error object, restricted to the two fields the source
reads: `params.missingProperty` (present only on required-property errors;
`Option` models `undefined`) and `message` (optional in Ajv's type). -/
structure AjvError where
  missingProperty : Option String
  message : Option String
deriving DecidableEq

/-- An Ajv compiled validator: `validate(obj)` returns a boolean, and
`validate.errors` afterwards holds `null` or the list of errors; both are
modelled as the two components of the returned pair. -/
def CompiledValidator : Type := GenericValue → Bool × Option (List AjvError)

/-- The registry view used by the source: `ajv.getSchema(schemaName)`,
returning the compiled validator or `undefined`. -/
def Registry : Type := Schema → Option CompiledValidator

/-- The result of a validation: `valid` flag plus the field-keyed error map
(`Record<string, string>` as an insertion-ordered association list). -/
structure ValidationResult where
  valid : Bool
  errors : List (String × String)
deriving DecidableEq

/-- JavaScript object assignment `m[k] = v` on a string-keyed record:
updates the first (unique) binding of `k` in place, otherwise appends the
new binding at the end. -/
def recordSet : List (String × String) → String → String → List (String × String)
  | [], k, v => [(k, v)]
  | (k', v') :: rest, k, v =>
    if k' = k then (k', v) :: rest else (k', v') :: recordSet rest k v

/-- JavaScript property read `m[k]` on a string-keyed record. -/
def lookupRecord : List (String × String) → String → Option String
  | [], _ => none
  | (k', v) :: rest, k => if k' = k then some v else lookupRecord rest k

/-- `e.params.missingProperty || "other"`: the key an error is recorded
under — the missing-property name when present and truthy (non-empty),
otherwise the literal `"other"`. -/
def errKey (e : AjvError) : String :=
  match e.missingProperty with
  | some s => if s = "" then "other" else s
  | none => "other"

/-- JavaScript truthiness of `e.message`: defined and non-empty. -/
def msgTruthy : Option String → Bool
  | some m => m ≠ ""
  | none => false

/-- One iteration of the error-enumeration loop in `validateObject`:
`const key = e.params.missingProperty || "other"; if (key && e.message)
errors[key] = e.message;`. -/
def recordErr (errors : List (String × String)) (e : AjvError) :
    List (String × String) :=
  let key := errKey e
  if key ≠ "" ∧ msgTruthy e.message = true then
    recordSet errors key (e.message.getD "")
  else
    errors

/-- The whole error-enumeration loop, over `validate.errors || []`. -/
def buildErrors (errs : List AjvError) : List (String × String) :=
  errs.foldl recordErr []

/-- `validateObject<T>(obj, schemaName)` from `src/validator/index.ts`:
look up the compiled validator; on a missing validator return the
schema-not-found result; on validation failure enumerate the errors into
the collapsing map; otherwise report success. -/
def validateObject (registry : Registry) (obj : GenericValue)
    (schemaName : Schema) : ValidationResult :=
  match registry schemaName with
  | none => { valid := false, errors := [("schema", "Schema not found")] }
  | some validate =>
    let r := validate obj
    if r.1 = false then
      { valid := false, errors := buildErrors (r.2.getD []) }
    else
      { valid := true, errors := [] }

/-- `safeCastObject<T>(obj, schemaName)`: validate, and on failure warn with
the error map (first component: the `console.warn` log, in emission order)
and throw `Invalid <schemaName>`; on success return the input object
unchanged. -/
def safeCastObject (registry : Registry) (obj : GenericValue)
    (schemaName : Schema) :
    List (List (String × String)) × Except String GenericValue :=
  let result := validateObject registry obj schemaName
  if result.valid = false then
    ([result.errors], Except.error ("Invalid " ++ schemaName.name))
  else
    ([], Except.ok obj)

/-- Modelled from the spec: `assertNever` is defined in `src/utils/common.ts`,
which is not among the sources; the spec states that a format value outside
the two known variants fails fatally with an unreachable-state error.  This
is the message carried by that fatal error. -/
def assertNever (x : String) : String :=
  "Unexpected value " ++ x

/-- `readFileToObject<T>(filename, format, schemaName)`: the file-read step
is modelled by receiving `fileContents` directly, and the external
`JSON.parse` / `YAML.parse` collaborators are the `parseJSON` / `parseYAML`
parameters (throw modelled as `Except.error`).  The format is dispatched by
string comparison exactly as in the source; a value outside the two known
variants reaches `assertNever`.  The result pairs the `console.warn` log
with the thrown-or-returned outcome. -/
def readFileToObject (parseJSON parseYAML : String → Except String GenericValue)
    (registry : Registry) (fileContents : String) (format : String)
    (schemaName : Schema) :
    List (List (String × String)) × Except String GenericValue :=
  if format = "JSON" then
    match parseJSON fileContents with
    | Except.error m => ([], Except.error m)
    | Except.ok obj => safeCastObject registry obj schemaName
  else if format = "YAML" then
    match parseYAML fileContents with
    | Except.error m => ([], Except.error m)
    | Except.ok obj => safeCastObject registry obj schemaName
  else
    ([], Except.error (assertNever format))

/-- `validateProject(obj)`. -/
def validateProject (registry : Registry) (obj : GenericValue) :
    ValidationResult :=
  validateObject registry obj PROJECT_SCHEMA

/-- `validateCollection(obj)`. -/
def validateCollection (registry : Registry) (obj : GenericValue) :
    ValidationResult :=
  validateObject registry obj COLLECTION_SCHEMA

/-- `safeCastProject(obj)`. -/
def safeCastProject (registry : Registry) (obj : GenericValue) :
    List (List (String × String)) × Except String GenericValue :=
  safeCastObject registry obj PROJECT_SCHEMA

/-- `safeCastCollection(obj)`. -/
def safeCastCollection (registry : Registry) (obj : GenericValue) :
    List (List (String × String)) × Except String GenericValue :=
  safeCastObject registry obj COLLECTION_SCHEMA

/-- Modelled from the spec: `DEFAULT_FORMAT` is defined in
`src/types/files.ts`, which is not among the sources; the spec says only
that one fixed default format is used when the caller omits one.  It is
modelled as the indented human-editable format; every property proved about
it holds for either choice of variant. -/
def DEFAULT_FORMAT : String := "YAML"

/-- The TS `ReadOptions` record: an optional `format` field. -/
structure ReadOptions where
  format : Option String

/-- `readProjectFile(filename, opts?)`: `opts?.format ?? DEFAULT_FORMAT`. -/
def readProjectFile (parseJSON parseYAML : String → Except String GenericValue)
    (registry : Registry) (fileContents : String) (opts : Option ReadOptions) :
    List (List (String × String)) × Except String GenericValue :=
  readFileToObject parseJSON parseYAML registry fileContents
    ((opts.bind ReadOptions.format).getD DEFAULT_FORMAT) PROJECT_SCHEMA

/-- `readCollectionFile(filename, opts?)`: `opts?.format ?? DEFAULT_FORMAT`. -/
def readCollectionFile (parseJSON parseYAML : String → Except String GenericValue)
    (registry : Registry) (fileContents : String) (opts : Option ReadOptions) :
    List (List (String × String)) × Except String GenericValue :=
  readFileToObject parseJSON parseYAML registry fileContents
    ((opts.bind ReadOptions.format).getD DEFAULT_FORMAT) COLLECTION_SCHEMA

/-! ### Helper lemmas about the collapsing error map -/

theorem errKey_ne_empty (e : AjvError) : errKey e ≠ "" := by
  unfold errKey
  cases e.missingProperty with
  | none => simp
  | some s =>
    by_cases hs : s = "" <;> simp [hs]

theorem recordSet_ne_nil (m : List (String × String)) (k v : String) :
    recordSet m k v ≠ [] := by
  cases m with
  | nil => simp [recordSet]
  | cons p rest =>
    obtain ⟨k', v'⟩ := p
    by_cases h : k' = k <;> simp [recordSet, h]

theorem lookupRecord_recordSet_self (m : List (String × String)) (k v : String) :
    lookupRecord (recordSet m k v) k = some v := by
  induction m with
  | nil => simp [recordSet, lookupRecord]
  | cons p rest ih =>
    obtain ⟨k', v'⟩ := p
    by_cases h : k' = k <;> simp [recordSet, lookupRecord, h, ih]

theorem lookupRecord_recordSet_ne (m : List (String × String)) (k v k' : String)
    (h : k ≠ k') :
    lookupRecord (recordSet m k v) k' = lookupRecord m k' := by
  induction m with
  | nil => simp [recordSet, lookupRecord, h]
  | cons p rest ih =>
    obtain ⟨k₀, v₀⟩ := p
    by_cases h₀ : k₀ = k
    · subst h₀
      simp [recordSet, lookupRecord, h]
    · simp only [recordSet, if_neg h₀]
      by_cases h₁ : k₀ = k' <;> simp [lookupRecord, h₁, ih]

theorem mem_keys_recordSet (m : List (String × String)) (k v a : String) :
    a ∈ (recordSet m k v).map Prod.fst ↔ a ∈ m.map Prod.fst ∨ a = k := by
  induction m with
  | nil => simp [recordSet]
  | cons p rest ih =>
    obtain ⟨k', v'⟩ := p
    by_cases h : k' = k
    · subst h
      constructor
      · intro hm
        rcases (by simpa [recordSet] using hm) with h₁ | h₁
        · exact Or.inl (by simp [h₁])
        · exact Or.inl (by simp; right; exact h₁)
      · intro hm
        rcases hm with h₁ | h₁
        · rcases (by simpa using h₁) with h₂ | h₂
          · simp [recordSet, h₂]
          · simp [recordSet]; right; exact h₂
        · simp [recordSet, h₁]
    · simp only [recordSet, if_neg h, List.map_cons, List.mem_cons, ih]
      tauto

theorem nodup_keys_recordSet (m : List (String × String)) (k v : String)
    (h : (m.map Prod.fst).Nodup) : ((recordSet m k v).map Prod.fst).Nodup := by
  induction m with
  | nil => simp [recordSet]
  | cons p rest ih =>
    obtain ⟨k', v'⟩ := p
    simp only [List.map_cons, List.nodup_cons] at h
    by_cases hk : k' = k
    · subst hk
      simpa [recordSet] using h
    · simp only [recordSet, if_neg hk, List.map_cons, List.nodup_cons]
      refine ⟨?_, ih h.2⟩
      rw [mem_keys_recordSet]
      rintro (hmem | rfl)
      · exact h.1 hmem
      · exact hk rfl

/-- Whether an error is recorded under key `k`: its computed key is `k` and
its message is truthy. -/
def errMatches (k : String) (e : AjvError) : Bool :=
  decide (errKey e = k ∧ msgTruthy e.message = true)

/-- The message of the last error of `errs` recorded under key `k`, if any. -/
def lastRecordedMsg (errs : List AjvError) (k : String) : Option String :=
  ((errs.filter (errMatches k)).getLast?).map (fun e => e.message.getD "")

theorem recordErr_cases (acc : List (String × String)) (e : AjvError) :
    recordErr acc e = recordSet acc (errKey e) (e.message.getD "") ∨
      recordErr acc e = acc := by
  unfold recordErr
  by_cases hc : errKey e ≠ "" ∧ msgTruthy e.message = true
  · exact Or.inl (by rw [if_pos hc])
  · exact Or.inr (by rw [if_neg hc])

theorem nodup_keys_foldl_recordErr (l : List AjvError) :
    ∀ acc : List (String × String), (acc.map Prod.fst).Nodup →
      ((l.foldl recordErr acc).map Prod.fst).Nodup := by
  induction l with
  | nil => intro acc h; simpa using h
  | cons e t ih =>
    intro acc h
    rw [List.foldl_cons]
    refine ih _ ?_
    rcases recordErr_cases acc e with hr | hr <;> rw [hr]
    · exact nodup_keys_recordSet _ _ _ h
    · exact h

theorem foldl_recordErr_lookup (l : List AjvError) :
    ∀ (acc : List (String × String)) (k : String),
      lookupRecord (l.foldl recordErr acc) k =
        match lastRecordedMsg l k with
        | some m => some m
        | none => lookupRecord acc k := by
  induction l using List.reverseRecOn with
  | nil => intro acc k; simp [lastRecordedMsg]
  | append_singleton t e ih =>
    intro acc k
    rw [List.foldl_append, List.foldl_cons, List.foldl_nil]
    by_cases hm : errMatches k e = true
    · have hkey : errKey e = k ∧ msgTruthy e.message = true := by
        simpa [errMatches] using hm
      have hrec : recordErr (t.foldl recordErr acc) e =
          recordSet (t.foldl recordErr acc) (errKey e) (e.message.getD "") := by
        unfold recordErr
        rw [if_pos ⟨errKey_ne_empty e, hkey.2⟩]
      rw [hrec, hkey.1, lookupRecord_recordSet_self]
      have hfilter : (t ++ [e]).filter (errMatches k) =
          t.filter (errMatches k) ++ [e] := by
        rw [List.filter_append]
        simp [hm]
      simp [lastRecordedMsg, hfilter]
    · have hnt : ¬ msgTruthy e.message = true ∨ ¬ errKey e = k := by
        by_cases ht : msgTruthy e.message = true
        · right
          intro hc
          exact hm (by simp [errMatches, hc, ht])
        · left; exact ht
      have hfilter : (t ++ [e]).filter (errMatches k) = t.filter (errMatches k) := by
        rw [List.filter_append]
        simp [hm]
      rcases hnt with ht | hk
      · have hrec : recordErr (t.foldl recordErr acc) e = t.foldl recordErr acc := by
          unfold recordErr
          rw [if_neg (by intro hc; exact ht hc.2)]
        rw [hrec, ih]
        simp [lastRecordedMsg, hfilter]
      · by_cases ht : msgTruthy e.message = true
        · have hrec : recordErr (t.foldl recordErr acc) e =
              recordSet (t.foldl recordErr acc) (errKey e) (e.message.getD "") := by
            unfold recordErr
            rw [if_pos ⟨errKey_ne_empty e, ht⟩]
          rw [hrec, lookupRecord_recordSet_ne _ _ _ _ hk, ih]
          simp [lastRecordedMsg, hfilter]
        · have hrec : recordErr (t.foldl recordErr acc) e = t.foldl recordErr acc := by
            unfold recordErr
            rw [if_neg (by intro hc; exact ht hc.2)]
          rw [hrec, ih]
          simp [lastRecordedMsg, hfilter]

theorem lookupRecord_buildErrors (errs : List AjvError) (k : String) :
    lookupRecord (buildErrors errs) k = lastRecordedMsg errs k := by
  unfold buildErrors
  rw [foldl_recordErr_lookup]
  cases h : lastRecordedMsg errs k <;> simp [lookupRecord]

theorem buildErrors_allOther_shape (l : List AjvError)
    (hall : ∀ e ∈ l, errKey e = "other" ∧ msgTruthy e.message = true) :
    buildErrors l = [] ∨ ∃ m, buildErrors l = [("other", m)] := by
  induction l using List.reverseRecOn with
  | nil => left; rfl
  | append_singleton t e ih =>
    right
    have ht : ∀ e' ∈ t, errKey e' = "other" ∧ msgTruthy e'.message = true := by
      intro e' he'
      exact hall e' (List.mem_append_left _ he')
    have he : errKey e = "other" ∧ msgTruthy e.message = true :=
      hall e (List.mem_append_right _ (List.mem_singleton.mpr rfl))
    have hbuild : buildErrors (t ++ [e]) = recordErr (buildErrors t) e := by
      unfold buildErrors
      rw [List.foldl_append, List.foldl_cons, List.foldl_nil]
    have hrec : recordErr (buildErrors t) e =
        recordSet (buildErrors t) (errKey e) (e.message.getD "") := by
      unfold recordErr
      rw [if_pos ⟨errKey_ne_empty e, he.2⟩]
    rcases ih ht with hsh | ⟨m, hsh⟩
    · exact ⟨e.message.getD "", by rw [hbuild, hrec, hsh, he.1]; rfl⟩
    · refine ⟨e.message.getD "", ?_⟩
      rw [hbuild, hrec, hsh, he.1]
      simp [recordSet]

theorem buildErrors_concat_other (es : List AjvError) (elast : AjvError)
    (hall : ∀ e ∈ es ++ [elast],
      errKey e = "other" ∧ msgTruthy e.message = true) :
    buildErrors (es ++ [elast]) = [("other", elast.message.getD "")] := by
  have ht : ∀ e ∈ es, errKey e = "other" ∧ msgTruthy e.message = true := by
    intro e he
    exact hall e (List.mem_append_left _ he)
  have he : errKey elast = "other" ∧ msgTruthy elast.message = true :=
    hall elast (List.mem_append_right _ (List.mem_singleton.mpr rfl))
  have hbuild : buildErrors (es ++ [elast]) = recordErr (buildErrors es) elast := by
    unfold buildErrors
    rw [List.foldl_append, List.foldl_cons, List.foldl_nil]
  have hrec : recordErr (buildErrors es) elast =
      recordSet (buildErrors es) (errKey elast) (elast.message.getD "") := by
    unfold recordErr
    rw [if_pos ⟨errKey_ne_empty elast, he.2⟩]
  rcases buildErrors_allOther_shape es ht with hsh | ⟨m, hsh⟩
  · rw [hbuild, hrec, hsh, he.1]; rfl
  · rw [hbuild, hrec, hsh, he.1]
    simp [recordSet]

theorem recordErr_ne_nil (acc : List (String × String)) (e : AjvError)
    (h : acc ≠ []) : recordErr acc e ≠ [] := by
  rcases recordErr_cases acc e with hr | hr <;> rw [hr]
  · exact recordSet_ne_nil _ _ _
  · exact h

theorem foldl_recordErr_ne_nil (l : List AjvError) :
    ∀ acc : List (String × String), acc ≠ [] → l.foldl recordErr acc ≠ [] := by
  induction l with
  | nil => intro acc h; simpa using h
  | cons e t ih =>
    intro acc h
    rw [List.foldl_cons]
    exact ih _ (recordErr_ne_nil acc e h)

theorem foldl_recordErr_ne_nil_of_truthy (l : List AjvError) :
    ∀ acc : List (String × String),
      (∃ e ∈ l, msgTruthy e.message = true) → l.foldl recordErr acc ≠ [] := by
  induction l with
  | nil =>
    intro acc h
    rcases h with ⟨e, he, _⟩
    exact absurd he (List.not_mem_nil e)
  | cons e t ih =>
    intro acc h
    rw [List.foldl_cons]
    rcases h with ⟨e', he', ht'⟩
    rcases List.mem_cons.mp he' with rfl | hmem
    · have hrec : recordErr acc e' =
          recordSet acc (errKey e') (e'.message.getD "") := by
        unfold recordErr
        rw [if_pos ⟨errKey_ne_empty e', ht'⟩]
      exact foldl_recordErr_ne_nil t _ (by rw [hrec]; exact recordSet_ne_nil _ _ _)
    · exact ih _ ⟨e', hmem, ht'⟩

theorem buildErrors_ne_nil (l : List AjvError)
    (h : ∃ e ∈ l, msgTruthy e.message = true) : buildErrors l ≠ [] :=
  foldl_recordErr_ne_nil_of_truthy l [] h

/-! ### Concrete validators and registries used by the witnesses -/

/-- A compiled validator that always fails with two non-missing-property
errors (e.g. two type mismatches at different paths). -/
def twoOtherErrors : CompiledValidator := fun _ =>
  (false, some [{ missingProperty := none, message := some "must be object" },
                { missingProperty := none, message := some "must be string" }])

/-- A registry in which every schema name resolves to `twoOtherErrors`. -/
def regTwoOther : Registry := fun _ => some twoOtherErrors

/-- A compiled validator that always succeeds (with `errors` left `null`). -/
def validatorOk : CompiledValidator := fun _ => (true, none)

/-- A registry in which every schema name resolves to `validatorOk`. -/
def regOk : Registry := fun _ => some validatorOk

/-- A registry with no compiled validator registered under any name. -/
def regNone : Registry := fun _ => none

/-! ### The claims -/

/-- **C1.** On a validator failure, `validateObject` builds the errors map by
iterating the reported error list in order, keying each error by its
missing-property name when present and by `"other"` otherwise, recording
only errors with a truthy (non-empty) message, later errors overwriting
earlier ones under the same key: for every key `k` the map holds exactly the
message of the last error recorded under `k` (first conjunct), the map has
at most one entry per key (second conjunct), and when every violation is a
non-missing-property one the whole map collapses to the single entry
`("other", last message)` (third conjunct). -/
theorem spec_C1 (registry : Registry) (obj : GenericValue)
    (schemaName : Schema) (v : CompiledValidator) (errs : List AjvError)
    (h1 : registry schemaName = some v) (h2 : v obj = (false, some errs)) :
    (∀ k, lookupRecord ((validateObject registry obj schemaName).errors) k =
        lastRecordedMsg errs k) ∧
    (((validateObject registry obj schemaName).errors).map Prod.fst).Nodup ∧
    ((∀ e ∈ errs, errKey e = "other" ∧ msgTruthy e.message = true) →
      ∀ es elast, errs = es ++ [elast] →
        (validateObject registry obj schemaName).errors =
          [("other", elast.message.getD "")]) := by
  have herr : (validateObject registry obj schemaName).errors = buildErrors errs := by
    simp [validateObject, h1, h2]
  refine ⟨?_, ?_, ?_⟩
  · intro k
    rw [herr]
    exact lookupRecord_buildErrors errs k
  · rw [herr]
    exact nodup_keys_foldl_recordErr errs [] (by simp)
  · intro hall es elast heq
    rw [herr, heq]
    exact buildErrors_concat_other es elast (heq ▸ hall)

/-- **C1 witness.** Two non-missing-property violations: the errors map has
exactly the one entry `("other", message of the second violation)`. -/
theorem spec_C1_witness :
    (validateObject regTwoOther GenericValue.null PROJECT_SCHEMA).errors =
      [("other", "must be string")] := by
  have h := spec_C1 regTwoOther GenericValue.null PROJECT_SCHEMA twoOtherErrors
    [{ missingProperty := none, message := some "must be object" },
     { missingProperty := none, message := some "must be string" }] rfl rfl
  exact h.2.2 (by decide)
    [{ missingProperty := none, message := some "must be object" }]
    { missingProperty := none, message := some "must be string" } rfl

/-- The guarantees the Ajv contract gives for a compiled validator run with
`allErrors` and default messages: whenever validation fails, `errors` is a
non-null, non-empty list and every error carries a non-empty message. -/
def AjvCompiled (v : CompiledValidator) : Prop :=
  ∀ obj, (v obj).1 = false →
    ∃ l, (v obj).2 = some l ∧ l ≠ [] ∧ ∀ e ∈ l, msgTruthy e.message = true

/-- **C2.** For every result of `validateObject` (with validators meeting the
Ajv contract), `valid = true` iff the errors map is empty. -/
theorem spec_C2 (registry : Registry) (obj : GenericValue)
    (schemaName : Schema)
    (h : ∀ v, registry schemaName = some v → AjvCompiled v) :
    (validateObject registry obj schemaName).valid = true ↔
      (validateObject registry obj schemaName).errors = [] := by
  cases hreg : registry schemaName with
  | none => simp [validateObject, hreg]
  | some v =>
    cases hok : (v obj).1 with
    | true => simp [validateObject, hreg, hok]
    | false =>
      obtain ⟨l, hl, hlne, hall⟩ := h v hreg obj hok
      obtain ⟨e, he⟩ := List.exists_mem_of_ne_nil l hlne
      have hne : buildErrors l ≠ [] := buildErrors_ne_nil l ⟨e, he, hall e he⟩
      simp [validateObject, hreg, hok, hl, hne]

/-- **C2 witness.** The invariant at a concrete registry and input. -/
theorem spec_C2_witness :
    (validateObject regOk GenericValue.null PROJECT_SCHEMA).valid = true ↔
      (validateObject regOk GenericValue.null PROJECT_SCHEMA).errors = [] := by
  refine spec_C2 regOk GenericValue.null PROJECT_SCHEMA ?_
  intro v hv
  cases Option.some.inj hv
  intro o ho
  simp [validatorOk] at ho

/-- **C3.** On invalid input, `safeCastObject` first emits the field-keyed
error map as a warning and then throws an error whose message equals
`"Invalid " + schemaName`; the thrown error carries only the schema name.
`safeCastProject` / `safeCastCollection` are the two specializations. -/
theorem spec_C3 (registry : Registry) (obj : GenericValue)
    (schemaName : Schema)
    (h : (validateObject registry obj schemaName).valid = false) :
    safeCastObject registry obj schemaName =
      ([(validateObject registry obj schemaName).errors],
        Except.error ("Invalid " ++ Schema.name schemaName)) ∧
    safeCastProject registry obj = safeCastObject registry obj PROJECT_SCHEMA ∧
    safeCastCollection registry obj =
      safeCastObject registry obj COLLECTION_SCHEMA := by
  refine ⟨?_, rfl, rfl⟩
  simp [safeCastObject, h]

/-- **C3 witness.** At a registry with no validators, the warning log holds
the error map and the thrown message is `Invalid project.json`. -/
theorem spec_C3_witness :
    safeCastObject regNone GenericValue.null PROJECT_SCHEMA =
      ([[("schema", "Schema not found")]],
        Except.error "Invalid project.json") := by
  have h := (spec_C3 regNone GenericValue.null PROJECT_SCHEMA rfl).1
  rw [h]
  rfl

/-- **C4.** With a schema name that has no compiled validator registered,
`validateObject` returns exactly `{valid: false, errors: {schema: "Schema
not found"}}`; being a total function, it never throws. -/
theorem spec_C4 (registry : Registry) (obj : GenericValue)
    (schemaName : Schema) (h : registry schemaName = none) :
    validateObject registry obj schemaName =
      { valid := false, errors := [("schema", "Schema not found")] } := by
  simp [validateObject, h]

/-- **C4 witness.** The unregistered-schema result at a concrete input. -/
theorem spec_C4_witness :
    validateObject regNone GenericValue.null PROJECT_SCHEMA =
      { valid := false, errors := [("schema", "Schema not found")] } :=
  spec_C4 regNone GenericValue.null PROJECT_SCHEMA rfl

/-- **C5.** On input that validates successfully, `safeCastObject` returns
the input value itself, unchanged, with an empty warning log.
`safeCastProject` / `safeCastCollection` are the two specializations. -/
theorem spec_C5 (registry : Registry) (obj : GenericValue)
    (schemaName : Schema)
    (h : (validateObject registry obj schemaName).valid = true) :
    safeCastObject registry obj schemaName = ([], Except.ok obj) ∧
    safeCastProject registry obj = safeCastObject registry obj PROJECT_SCHEMA ∧
    safeCastCollection registry obj =
      safeCastObject registry obj COLLECTION_SCHEMA := by
  refine ⟨?_, rfl, rfl⟩
  simp [safeCastObject, h]

/-- **C5 witness.** A successful cast returns the argument itself. -/
theorem spec_C5_witness :
    safeCastObject regOk GenericValue.null PROJECT_SCHEMA =
      ([], Except.ok GenericValue.null) :=
  (spec_C5 regOk GenericValue.null PROJECT_SCHEMA rfl).1

/-- A parse stub that always succeeds with `null`. -/
def parseAlwaysNull : String → Except String GenericValue :=
  fun _ => Except.ok GenericValue.null

/-- A parse stub that always throws, with a parser-shaped message. -/
def parseAlwaysFail : String → Except String GenericValue :=
  fun _ => Except.error "Unexpected token"

/-- **C6.** The loader's format dispatch: the `"JSON"` format hands the
contents to the strict parser, the `"YAML"` format to the indented parser,
and any other format value fails fatally with the unreachable-state error —
independently of either parser, so it is never silently mis-parsed. -/
theorem spec_C6 (parseJSON parseYAML : String → Except String GenericValue)
    (registry : Registry) (fileContents : String) (schemaName : Schema)
    (format : String) :
    (readFileToObject parseJSON parseYAML registry fileContents "JSON"
        schemaName =
      match parseJSON fileContents with
      | Except.error m => ([], Except.error m)
      | Except.ok obj => safeCastObject registry obj schemaName) ∧
    (readFileToObject parseJSON parseYAML registry fileContents "YAML"
        schemaName =
      match parseYAML fileContents with
      | Except.error m => ([], Except.error m)
      | Except.ok obj => safeCastObject registry obj schemaName) ∧
    (format ≠ "JSON" → format ≠ "YAML" →
      readFileToObject parseJSON parseYAML registry fileContents format
          schemaName =
        ([], Except.error (assertNever format))) := by
  refine ⟨?_, ?_, ?_⟩
  · unfold readFileToObject
    rw [if_pos rfl]
  · unfold readFileToObject
    rw [if_neg (by decide), if_pos rfl]
  · intro h1 h2
    unfold readFileToObject
    rw [if_neg h1, if_neg h2]

/-- **C6 witness.** A format value outside the two known variants fails with
the unreachable-state error. -/
theorem spec_C6_witness :
    readFileToObject parseAlwaysNull parseAlwaysNull regNone "" "TOML"
        PROJECT_SCHEMA =
      ([], Except.error "Unexpected value TOML") := by
  have h := (spec_C6 parseAlwaysNull parseAlwaysNull regNone "" PROJECT_SCHEMA
    "TOML").2.2 (by decide) (by decide)
  rw [h]
  rfl

/-- **C7.** On contents that are syntactically malformed for the declared
format, `readFileToObject` throws the parse error before any validation
occurs: the outcome is the parser's own error with an empty warning log, for
any registry, and whenever the parser's message differs from every
`"Invalid <schemaName>"` string the thrown error is not a validation
error. -/
theorem spec_C7 (parseJSON parseYAML : String → Except String GenericValue)
    (registry : Registry) (fileContents : String) (schemaName : Schema)
    (m mY : String)
    (hJ : parseJSON fileContents = Except.error m)
    (hY : parseYAML fileContents = Except.error mY) :
    readFileToObject parseJSON parseYAML registry fileContents "JSON"
        schemaName =
      ([], Except.error m) ∧
    readFileToObject parseJSON parseYAML registry fileContents "YAML"
        schemaName =
      ([], Except.error mY) ∧
    (∀ sc : Schema, m ≠ "Invalid " ++ Schema.name sc →
      (readFileToObject parseJSON parseYAML registry fileContents "JSON"
          schemaName).2 ≠
        Except.error ("Invalid " ++ Schema.name sc)) := by
  have h1 : readFileToObject parseJSON parseYAML registry fileContents "JSON"
      schemaName = ([], Except.error m) := by
    unfold readFileToObject
    rw [if_pos rfl, hJ]
  have h2 : readFileToObject parseJSON parseYAML registry fileContents "YAML"
      schemaName = ([], Except.error mY) := by
    unfold readFileToObject
    rw [if_neg (by decide), if_pos rfl, hY]
  refine ⟨h1, h2, ?_⟩
  intro sc hm hcontra
  rw [h1] at hcontra
  exact hm (Except.error.inj hcontra)

/-- **C7 witness.** A failing parser's message propagates unchanged and is
not the project validation error. -/
theorem spec_C7_witness :
    readFileToObject parseAlwaysFail parseAlwaysFail regNone "x" "JSON"
        PROJECT_SCHEMA =
      ([], Except.error "Unexpected token") ∧
    (readFileToObject parseAlwaysFail parseAlwaysFail regNone "x" "JSON"
        PROJECT_SCHEMA).2 ≠
      Except.error "Invalid project.json" := by
  have h := spec_C7 parseAlwaysFail parseAlwaysFail regNone "x" PROJECT_SCHEMA
    "Unexpected token" "Unexpected token" rfl rfl
  exact ⟨h.1, h.2.2 PROJECT_SCHEMA (by decide)⟩

/-- **C8.** `validateObject`, `validateProject` and `validateCollection` are
total functions on every generic value (including `null` and non-objects)
and every schema name: there is no exception channel, and every call falls
into exactly one of the two returned-`ValidationResult` outcomes — the
schema-not-found result, or the result computed from the validator run. -/
theorem spec_C8 (registry : Registry) (obj : GenericValue) :
    (validateProject registry obj =
      validateObject registry obj PROJECT_SCHEMA) ∧
    (validateCollection registry obj =
      validateObject registry obj COLLECTION_SCHEMA) ∧
    ∀ schemaName : Schema,
      (registry schemaName = none →
        validateObject registry obj schemaName =
          { valid := false, errors := [("schema", "Schema not found")] }) ∧
      (∀ v : CompiledValidator, registry schemaName = some v →
        validateObject registry obj schemaName =
          if (v obj).1 = false then
            { valid := false, errors := buildErrors ((v obj).2.getD []) }
          else
            { valid := true, errors := [] }) := by
  refine ⟨rfl, rfl, fun schemaName => ⟨?_, ?_⟩⟩
  · intro h
    simp [validateObject, h]
  · intro v h
    simp [validateObject, h]

/-- **C8 witness.** A non-object input with an unregistered schema still
produces a returned `ValidationResult`. -/
theorem spec_C8_witness :
    validateProject regNone (GenericValue.bool true) =
      { valid := false, errors := [("schema", "Schema not found")] } := by
  have h := spec_C8 regNone (GenericValue.bool true)
  rw [h.1]
  exact (h.2.2 PROJECT_SCHEMA).1 rfl

/-- **C9.** Calling `readProjectFile` / `readCollectionFile` with no options
or with options lacking a format behaves identically to passing the default
format explicitly. -/
theorem spec_C9 (parseJSON parseYAML : String → Except String GenericValue)
    (registry : Registry) (fileContents : String) :
    (readProjectFile parseJSON parseYAML registry fileContents none =
      readProjectFile parseJSON parseYAML registry fileContents
        (some { format := some DEFAULT_FORMAT })) ∧
    (readProjectFile parseJSON parseYAML registry fileContents
        (some { format := none }) =
      readProjectFile parseJSON parseYAML registry fileContents
        (some { format := some DEFAULT_FORMAT })) ∧
    (readCollectionFile parseJSON parseYAML registry fileContents none =
      readCollectionFile parseJSON parseYAML registry fileContents
        (some { format := some DEFAULT_FORMAT })) ∧
    (readCollectionFile parseJSON parseYAML registry fileContents
        (some { format := none }) =
      readCollectionFile parseJSON parseYAML registry fileContents
        (some { format := some DEFAULT_FORMAT })) :=
  ⟨rfl, rfl, rfl, rfl⟩

/-- **C10.** The schema names carry the `.json` suffix: `safeCastProject` on
a failing object throws exactly `Invalid project.json`, and
`safeCastCollection` exactly `Invalid collection.json`. -/
theorem spec_C10 (registry : Registry) (obj : GenericValue)
    (hp : (validateObject registry obj PROJECT_SCHEMA).valid = false)
    (hc : (validateObject registry obj COLLECTION_SCHEMA).valid = false) :
    Schema.name PROJECT_SCHEMA = "project.json" ∧
    Schema.name COLLECTION_SCHEMA = "collection.json" ∧
    (safeCastProject registry obj).2 = Except.error "Invalid project.json" ∧
    (safeCastCollection registry obj).2 =
      Except.error "Invalid collection.json" := by
  refine ⟨rfl, rfl, ?_, ?_⟩
  · unfold safeCastProject
    simp [safeCastObject, hp]
    rfl
  · unfold safeCastCollection
    simp [safeCastObject, hc]
    rfl

/-- **C10 witness.** The two thrown messages at a concrete failing input. -/
theorem spec_C10_witness :
    (safeCastProject regNone GenericValue.null).2 =
      Except.error "Invalid project.json" ∧
    (safeCastCollection regNone GenericValue.null).2 =
      Except.error "Invalid collection.json" :=
  (spec_C10 regNone GenericValue.null rfl rfl).2.2
